import Mathlib

/-!
Verification of the cube_game Solana program
(src/solana-program/programs/cube_game/src/lib.rs).

The program is a state-transition system over ledger accounts.  We embed it
shallowly: the account data structs (`GameState`, `CubeRecord`, `PlayerStats`,
`CubeRemovedEvent`) become Lean structures, the lamport balances of the
treasury PDA and of external signers become explicit `Nat` fields of a
`Ledger` state, and each of the four instruction handlers becomes a function
`Ledger → args → Except TxError Ledger`.  An instruction that returns an
error has no effect on the committed ledger: the Solana runtime commits a
transaction all-or-nothing, so the committed semantics of one submitted
instruction is `step`, which keeps the old ledger on any error.

Machine-integer conventions: all `u64` quantities are modelled as `Nat`
together with explicit bound checks against `2 ^ 64` at every arithmetic
site where the on-chain computation is checked.  The system program's
`transfer` uses checked arithmetic (insufficient funds, overflow of the
recipient), and the program's own `+= 1` / `-=` sites abort the transaction
on wrap: Anchor workspaces compile with `overflow-checks = true` in the
release profile, and independently the runtime rejects any instruction whose
lamport sums do not balance, so an unsigned wrap is never committed.  The
build profile is not part of src/, so those checks are modelled from the
spec (§4.4, §9: underflow must fail closed, not wrap).

The ledger clock (`Clock::get`) is an external collaborator (spec §6).  On
Solana the clock sysvar is fixed for the whole transaction, so both reads in
`remove_cube` observe the same value; we model it as a per-transaction value
`now` read through `clockGet`.
-/

/-- Public keys (32-byte identities on chain) are modelled as naturals; the
claims only compare them for equality. -/
abbrev Pubkey := Nat

/-- One lamport unit less than `2 ^ 64`: `u64` arithmetic is checked against
this bound. -/
def u64Size : Nat := 2 ^ 64

/-- `#[account] GameState` (lib.rs lines 186-193): the singleton game
configuration record. -/
structure GameState where
  authority : Pubkey
  price_per_cube : Nat
  total_cubes_removed : Nat
  bump : Nat
deriving DecidableEq, Repr

/-- `#[account] CubeRecord` (lib.rs lines 195-203): one per cube id. -/
structure CubeRecord where
  is_removed : Bool
  removed_by : Pubkey
  removed_at : Int
  cube_id : String
deriving DecidableEq, Repr

/-- `#[account] PlayerStats` (lib.rs lines 205-210): one per player. -/
structure PlayerStats where
  player : Pubkey
  cubes_removed : Nat
deriving DecidableEq, Repr

/-- `#[event] CubeRemovedEvent` (lib.rs lines 212-218). -/
structure CubeRemovedEvent where
  cube_id : String
  player : Pubkey
  total_removed : Nat
  timestamp : Int
deriving DecidableEq, Repr

/-- `#[error_code] CubeGameError` (lib.rs lines 220-224). -/
inductive CubeGameError where
  | CubeAlreadyRemoved
deriving DecidableEq, Repr

/-- Transaction-level failures: the program error, plus the failures raised
by Anchor account constraints, by the system program transfer, and by checked
`u64` arithmetic.  Any of these aborts the whole transaction. -/
inductive TxError where
  | program (e : CubeGameError)
  | unauthorized
  | insufficientFunds
  | duplicateInitialization
  | accountNotFound
  | arithmeticOverflow
  | accountDidNotSerialize
deriving DecidableEq, Repr

/-- The on-ledger state touched by the program: the (optional, singleton)
game-state account, the per-cube and per-player PDA accounts, the lamport
balance of the treasury PDA, the lamport balances of external identities,
and the append-only list of emitted events. -/
structure Ledger where
  game_state : Option GameState
  cube_records : String → Option CubeRecord
  player_stats : Pubkey → Option PlayerStats
  treasury_lamports : Nat
  lamports : Pubkey → Nat
  events : List CubeRemovedEvent

/-- The empty ledger before any instruction, parameterised by the initial
lamport balances of external identities. -/
def Ledger.empty (bal : Pubkey → Nat) : Ledger :=
  { game_state := none
    cube_records := fun _ => none
    player_stats := fun _ => none
    treasury_lamports := 0
    lamports := bal
    events := [] }

/-- The ledger clock, spec §6: `now() -> timestamp`.  Modelled from the spec:
the clock sysvar delivered to `Clock::get` is a fixed value for the whole
enclosing transaction, so every read inside one instruction returns the same
timestamp. -/
def clockGet (now : Int) : Int := now

/-- `system_instruction::transfer` as executed by the system program: checked
subtraction from the sender (failing closed when funds are insufficient) and
checked addition to the recipient.  Returns the pair (new sender balance,
new recipient balance). -/
def systemTransfer (fromBal toBal amount : Nat) : Except TxError (Nat × Nat) :=
  if fromBal < amount then .error .insufficientFunds
  else if u64Size ≤ toBal + amount then .error .arithmeticOverflow
  else .ok (fromBal - amount, toBal + amount)

/-- Handler `initialize` (lib.rs lines 10-17) with its `Initialize` account
constraints (lines 86-108): the game-state PDA is created with `init`, which
fails if the account already exists; the handler stores the caller as
authority, the given price, a zero counter, and the derivation bump found by
the runtime. -/
def initGame (l : Ledger) (caller : Pubkey) (price_per_cube : Nat) (bump : Nat) :
    Except TxError Ledger :=
  match l.game_state with
  | some _ => .error .duplicateInitialization
  | none =>
    .ok { l with game_state := some { authority := caller,
                                      price_per_cube := price_per_cube,
                                      total_cubes_removed := 0,
                                      bump := bump } }

/-- The zero-initialised cube record delivered by `init_if_needed` when the
cube PDA does not exist yet. -/
def CubeRecord.fresh : CubeRecord :=
  { is_removed := false, removed_by := 0, removed_at := 0, cube_id := "" }

/-- The zero-initialised player-stats record delivered by `init_if_needed`
when the player PDA does not exist yet. -/
def PlayerStats.fresh : PlayerStats :=
  { player := 0, cubes_removed := 0 }

/-- Handler `remove_cube` (lib.rs lines 20-65) with its `RemoveCube` account
constraints (lines 110-150).  The game-state PDA must exist; the cube record
and player stats are resolved with `init_if_needed` (zero-initialised when
absent); the handler requires `!is_removed`, transfers `price_per_cube`
lamports from the signing player to the treasury PDA via the system program,
marks the cube removed with the caller and the clock timestamp, increments
the global and per-player counters (checked `u64` arithmetic, see the file
header), writes the player field, and emits a `CubeRemovedEvent` whose
timestamp is a second clock read.  Anchor serialises `cube_id` into the
record with `max_len(32)` bytes of space; a longer id fails serialisation
and aborts the transaction. -/
def remove_cube (l : Ledger) (player : Pubkey) (cube_id : String) (now : Int) :
    Except TxError Ledger :=
  match l.game_state with
  | none => .error .accountNotFound
  | some game =>
    if ((l.cube_records cube_id).getD CubeRecord.fresh).is_removed then
      .error (.program .CubeAlreadyRemoved)
    else
      match systemTransfer (l.lamports player) l.treasury_lamports game.price_per_cube with
      | .error e => .error e
      | .ok (playerBal, treasuryBal) =>
        if u64Size ≤ game.total_cubes_removed + 1 then .error .arithmeticOverflow
        else if u64Size ≤ ((l.player_stats player).getD PlayerStats.fresh).cubes_removed + 1 then
          .error .arithmeticOverflow
        else if 32 < cube_id.utf8ByteSize then .error .accountDidNotSerialize
        else
          .ok { l with
            game_state := some { game with
              total_cubes_removed := game.total_cubes_removed + 1 },
            cube_records := fun id =>
              if id = cube_id then
                some { is_removed := true, removed_by := player,
                       removed_at := clockGet now, cube_id := cube_id }
              else l.cube_records id,
            player_stats := fun p =>
              if p = player then
                some { player := player,
                       cubes_removed :=
                         ((l.player_stats player).getD PlayerStats.fresh).cubes_removed + 1 }
              else l.player_stats p,
            lamports := fun p => if p = player then playerBal else l.lamports p,
            treasury_lamports := treasuryBal,
            events := l.events ++
              [{ cube_id := cube_id, player := player,
                 total_removed := game.total_cubes_removed + 1,
                 timestamp := clockGet now }] }

/-- Handler `set_price` (lib.rs lines 68-72) with its `SetPrice` constraints
(lines 152-163): the game-state PDA must exist and its `has_one = authority`
constraint requires the signing caller to equal the stored authority,
failing with a constraint violation (spec error `Unauthorized`) otherwise;
the handler then overwrites `price_per_cube`. -/
def set_price (l : Ledger) (caller : Pubkey) (new_price : Nat) :
    Except TxError Ledger :=
  match l.game_state with
  | none => .error .accountNotFound
  | some game =>
    if game.authority = caller then
      .ok { l with game_state := some { game with price_per_cube := new_price } }
    else .error .unauthorized

/-- Handler `withdraw` (lib.rs lines 75-83) with its `Withdraw` constraints
(lines 165-184): `has_one = authority` gates the caller; the handler then
moves `amount` lamports from the treasury PDA to the authority.  The `-=` on
the treasury's `u64` lamports fails closed when `amount` exceeds the balance
and the `+=` on the authority's lamports fails closed on wrap (checked
arithmetic; modelled from the spec §4.4/§9, since the overflow-checking
build profile and the runtime's lamport-sum check are outside src/). -/
def withdraw (l : Ledger) (caller : Pubkey) (amount : Nat) :
    Except TxError Ledger :=
  match l.game_state with
  | none => .error .accountNotFound
  | some game =>
    if game.authority = caller then
      if l.treasury_lamports < amount then .error .arithmeticOverflow
      else if u64Size ≤ l.lamports caller + amount then .error .arithmeticOverflow
      else
        .ok { l with
          treasury_lamports := l.treasury_lamports - amount
          lamports := fun p =>
            if p = caller then l.lamports caller + amount else l.lamports p }
    else .error .unauthorized

/-- One submitted transaction: which instruction, the signing caller, and the
instruction data.  `removeCube` also carries the transaction's clock value. -/
inductive Op where
  | initGame (caller : Pubkey) (price : Nat) (bump : Nat)
  | removeCube (caller : Pubkey) (cube_id : String) (now : Int)
  | setPrice (caller : Pubkey) (new_price : Nat)
  | withdraw (caller : Pubkey) (amount : Nat)
deriving DecidableEq, Repr

/-- Run one instruction against the ledger. -/
def run (l : Ledger) : Op → Except TxError Ledger
  | .initGame c price b => initGame l c price b
  | .removeCube p id now => remove_cube l p id now
  | .setPrice c np => set_price l c np
  | .withdraw c a => withdraw l c a

/-- The committed effect of one submitted transaction: the runtime commits
all-or-nothing, so an erroring instruction leaves the ledger unchanged. -/
def step (l : Ledger) (op : Op) : Ledger :=
  match run l op with
  | .ok l2 => l2
  | .error _ => l

/-- Commit a whole sequence of submitted transactions in order. -/
def exec (l : Ledger) (ops : List Op) : Ledger := ops.foldl step l

/-- Whether the transaction `op` commits successfully from `l`. -/
def txOk (l : Ledger) (op : Op) : Bool :=
  match run l op with
  | .ok _ => true
  | .error _ => false

/-- Whether `op` is a claim (`remove_cube`) transaction that commits
successfully from `l`. -/
def claimOk (l : Ledger) (op : Op) : Bool :=
  match op with
  | .removeCube _ _ _ => txOk l op
  | _ => false

/-- Number of successfully committed claims along a run. -/
def claimsInRun : Ledger → List Op → Nat
  | _, [] => 0
  | l, op :: ops => (if claimOk l op then 1 else 0) + claimsInRun (step l op) ops

/-- The `total_cubes_removed` counter of the configuration record, read as 0
while the record does not exist yet. -/
def totalClaims (l : Ledger) : Nat :=
  match l.game_state with
  | some g => g.total_cubes_removed
  | none => 0

/-- The configured `price_per_cube`, read as 0 while the configuration record
does not exist yet. -/
def priceOf (l : Ledger) : Nat :=
  match l.game_state with
  | some g => g.price_per_cube
  | none => 0

/-- Whether the cube record for `id` exists and is marked removed. -/
def cubeRemoved (l : Ledger) (id : String) : Bool :=
  match l.cube_records id with
  | some r => r.is_removed
  | none => false

/-- Concrete ledger for evaluation: empty chain, every external identity
holding 1000 lamports. -/
def W0 : Ledger := Ledger.empty (fun _ => 1000)

/-- `W0` after `initialize` by identity 7 with price 100 and bump 255. -/
def W1 : Ledger := step W0 (.initGame 7 100 255)

/-- `W1` after a successful claim of "cube-1" by identity 8 at time 5. -/
def W2 : Ledger := step W1 (.removeCube 8 "cube-1" 5)

/-- Concrete initialized ledger in which identity 3 holds only 40 lamports,
fewer than the 100-lamport price. -/
def W1poor : Ledger :=
  step (Ledger.empty (fun p => if p = 3 then 40 else 1000)) (.initGame 7 100 255)

theorem step_eq_of_run_error {l : Ledger} {op : Op} {e : TxError}
    (h : run l op = .error e) : step l op = l := by
  simp [step, h]

theorem step_eq_of_run_ok {l : Ledger} {op : Op} {l2 : Ledger}
    (h : run l op = .ok l2) : step l op = l2 := by
  simp [step, h]

theorem txOk_iff_ok {l : Ledger} {op : Op} :
    txOk l op = true ↔ ∃ l2, run l op = .ok l2 := by
  unfold txOk
  split
  · rename_i l2 h
    exact ⟨fun _ => ⟨l2, h⟩, fun _ => rfl⟩
  · rename_i e h
    constructor
    · intro hfalse; cases hfalse
    · rintro ⟨l2, h2⟩; rw [h] at h2; cases h2

theorem txOk_eq_false_of_run_error {l : Ledger} {op : Op} {e : TxError}
    (h : run l op = .error e) : txOk l op = false := by
  simp [txOk, h]

/-- Complete characterisation of a successful `initialize`: it requires the
configuration record to be absent and only creates it. -/
theorem initGame_ok_shape {l : Ledger} {c : Pubkey} {price b : Nat} {l2 : Ledger}
    (hrun : run l (.initGame c price b) = .ok l2) :
    l.game_state = none ∧
    l2 = { l with game_state := some { authority := c,
                                       price_per_cube := price,
                                       total_cubes_removed := 0,
                                       bump := b } } := by
  simp only [run] at hrun
  unfold initGame at hrun
  split at hrun
  · cases hrun
  · rename_i hg
    cases hrun
    exact ⟨hg, rfl⟩

/-- Complete characterisation of a successful `set_price`: the configuration
exists, the caller is its authority, and only `price_per_cube` changes. -/
theorem set_price_ok_shape {l : Ledger} {c : Pubkey} {np : Nat} {l2 : Ledger}
    (hrun : run l (.setPrice c np) = .ok l2) :
    ∃ g, l.game_state = some g ∧ g.authority = c ∧
      l2 = { l with game_state := some { g with price_per_cube := np } } := by
  simp only [run] at hrun
  unfold set_price at hrun
  split at hrun
  · cases hrun
  · rename_i g hg
    split at hrun
    · rename_i hauth
      cases hrun
      exact ⟨g, hg, hauth, rfl⟩
    · cases hrun

/-- Complete characterisation of a successful `withdraw`: the configuration
exists, the caller is its authority, the amount is within the treasury
balance, the credited balance does not wrap, and exactly the two balances
move. -/
theorem withdraw_ok_shape {l : Ledger} {c : Pubkey} {a : Nat} {l2 : Ledger}
    (hrun : run l (.withdraw c a) = .ok l2) :
    ∃ g, l.game_state = some g ∧ g.authority = c ∧
      a ≤ l.treasury_lamports ∧ l.lamports c + a < u64Size ∧
      l2 = { l with
        treasury_lamports := l.treasury_lamports - a,
        lamports := fun p =>
          if p = c then l.lamports c + a else l.lamports p } := by
  simp only [run] at hrun
  unfold withdraw at hrun
  split at hrun
  · cases hrun
  · rename_i g hg
    split at hrun
    · rename_i hauth
      split at hrun
      · cases hrun
      · rename_i hle
        split at hrun
        · cases hrun
        · rename_i hov
          cases hrun
          exact ⟨g, hg, hauth, by omega, by omega, rfl⟩
    · cases hrun

/-- Complete characterisation of a successful system-program transfer. -/
theorem systemTransfer_ok_shape {src dst a pB tB : Nat}
    (h : systemTransfer src dst a = .ok (pB, tB)) :
    a ≤ src ∧ dst + a < u64Size ∧ pB = src - a ∧ tB = dst + a := by
  unfold systemTransfer at h
  split at h
  · cases h
  · split at h
    · cases h
    · rename_i hlt hov
      cases h
      exact ⟨by omega, by omega, rfl, rfl⟩

/-- Complete characterisation of a successful claim: the configuration
exists, the cube is not yet removed, the player can pay the current price,
the counters do not overflow, the id serialises, and the committed state is
exactly the literal written by the handler. -/
theorem remove_cube_ok_shape {l : Ledger} {p : Pubkey} {id : String} {t : Int} {l2 : Ledger}
    (hrun : run l (.removeCube p id t) = .ok l2) :
    ∃ g, l.game_state = some g ∧
      ((l.cube_records id).getD CubeRecord.fresh).is_removed = false ∧
      g.price_per_cube ≤ l.lamports p ∧
      l2 = { l with
        game_state := some { g with
          total_cubes_removed := g.total_cubes_removed + 1 },
        cube_records := fun i =>
          if i = id then
            some { is_removed := true, removed_by := p,
                   removed_at := clockGet t, cube_id := id }
          else l.cube_records i,
        player_stats := fun q =>
          if q = p then
            some { player := p,
                   cubes_removed :=
                     ((l.player_stats p).getD PlayerStats.fresh).cubes_removed + 1 }
          else l.player_stats q,
        lamports := fun q =>
          if q = p then l.lamports p - g.price_per_cube else l.lamports q,
        treasury_lamports := l.treasury_lamports + g.price_per_cube,
        events := l.events ++
          [{ cube_id := id, player := p,
             total_removed := g.total_cubes_removed + 1,
             timestamp := clockGet t }] } := by
  simp only [run] at hrun
  unfold remove_cube at hrun
  split at hrun
  · cases hrun
  · rename_i g hg
    split at hrun
    · cases hrun
    · rename_i hrem
      split at hrun
      · cases hrun
      · rename_i playerBal treasuryBal htr
        obtain ⟨hle, hov, hpB, htB⟩ := systemTransfer_ok_shape htr
        subst hpB htB
        split at hrun
        · cases hrun
        · split at hrun
          · cases hrun
          · split at hrun
            · cases hrun
            · cases hrun
              exact ⟨g, hg, by simpa using hrem, hle, rfl⟩

/-- A cube marked removed stays removed across any single committed
transaction. -/
theorem cubeRemoved_mono_step (l : Ledger) (op : Op) (id : String)
    (h : cubeRemoved l id = true) : cubeRemoved (step l op) id = true := by
  cases hrun : run l op with
  | error e => rw [step_eq_of_run_error hrun]; exact h
  | ok l2 =>
    rw [step_eq_of_run_ok hrun]
    cases op with
    | initGame c price b =>
      obtain ⟨-, hl2⟩ := initGame_ok_shape hrun
      subst hl2
      simpa [cubeRemoved] using h
    | setPrice c np =>
      obtain ⟨g, hg, hauth, hl2⟩ := set_price_ok_shape hrun
      subst hl2
      simpa [cubeRemoved] using h
    | withdraw c a =>
      obtain ⟨g, hg, hauth, hle, hov, hl2⟩ := withdraw_ok_shape hrun
      subst hl2
      simpa [cubeRemoved] using h
    | removeCube p cid t =>
      obtain ⟨g, hg, hfresh, hle, hl2⟩ := remove_cube_ok_shape hrun
      subst hl2
      by_cases hid : id = cid
      · simp [cubeRemoved, hid]
      · simpa [cubeRemoved, hid] using h

/-- The configuration counter moves by exactly the number (0 or 1) of claims
committed in one transaction. -/
theorem totalClaims_step (l : Ledger) (op : Op) :
    totalClaims (step l op) = totalClaims l + (if claimOk l op then 1 else 0) := by
  cases hrun : run l op with
  | error e =>
    rw [step_eq_of_run_error hrun]
    have hca : claimOk l op = false := by
      cases op <;> simp [claimOk, txOk, hrun]
    simp [hca]
  | ok l2 =>
    rw [step_eq_of_run_ok hrun]
    cases op with
    | initGame c price b =>
      obtain ⟨hnone, hl2⟩ := initGame_ok_shape hrun
      subst hl2
      simp [claimOk, totalClaims, hnone]
    | setPrice c np =>
      obtain ⟨g, hg, hauth, hl2⟩ := set_price_ok_shape hrun
      subst hl2
      simp [claimOk, totalClaims, hg]
    | withdraw c a =>
      obtain ⟨g, hg, hauth, hle, hov, hl2⟩ := withdraw_ok_shape hrun
      subst hl2
      simp [claimOk, totalClaims]
    | removeCube p cid t =>
      obtain ⟨g, hg, hfresh, hle, hl2⟩ := remove_cube_ok_shape hrun
      subst hl2
      simp [claimOk, txOk, hrun, totalClaims, hg]

/-- C5: for every Cube Claim Record and every sequence of the four
operations, `is_removed` (spec name `is_claimed`) transitions false→true at
most once and is never reset: once a ledger shows a cube as removed, no
sequence of committed transactions ever shows it unremoved again. -/
theorem cube_removed_never_resets (ops : List Op) (l : Ledger) (id : String)
    (h : cubeRemoved l id = true) : cubeRemoved (exec l ops) id = true := by
  induction ops generalizing l with
  | nil => exact h
  | cons op ops ih => exact ih (step l op) (cubeRemoved_mono_step l op id h)

theorem cube_removed_never_resets_witness :
    cubeRemoved W2 "cube-1" = true ∧
    cubeRemoved
      (exec W2 [.setPrice 7 50, .removeCube 9 "cube-2" 6, .withdraw 7 100])
      "cube-1" = true :=
  ⟨by decide,
   cube_removed_never_resets [.setPrice 7 50, .removeCube 9 "cube-2" 6, .withdraw 7 100]
     W2 "cube-1" (by decide)⟩

/-- C6: `total_cubes_removed` (spec name `total_claims`) counts exactly the
committed claims of any run: it starts at 0 on the freshly created record,
each committed claim adds exactly one, every failed or non-claim transaction
leaves it unchanged, and it is monotonically non-decreasing. -/
theorem total_claims_counts_committed_claims :
    (∀ (l : Ledger) (ops : List Op),
        totalClaims (exec l ops) = totalClaims l + claimsInRun l ops) ∧
    (∀ (l : Ledger) (ops : List Op), totalClaims l ≤ totalClaims (exec l ops)) ∧
    (∀ (bal : Pubkey → Nat) (ops : List Op),
        totalClaims (exec (Ledger.empty bal) ops) =
          claimsInRun (Ledger.empty bal) ops) := by
  have hmain : ∀ (ops : List Op) (l : Ledger),
      totalClaims (exec l ops) = totalClaims l + claimsInRun l ops := by
    intro ops
    induction ops with
    | nil => intro l; simp [exec, claimsInRun]
    | cons op ops ih =>
      intro l
      have h1 : exec l (op :: ops) = exec (step l op) ops := rfl
      have h2 : claimsInRun l (op :: ops) =
          (if claimOk l op then 1 else 0) + claimsInRun (step l op) ops := rfl
      rw [h1, ih (step l op), totalClaims_step, h2]
      omega
  refine ⟨fun l ops => hmain ops l, fun l ops => ?_, fun bal ops => ?_⟩
  · rw [hmain ops l]; omega
  · rw [hmain ops (Ledger.empty bal)]
    simp [totalClaims, Ledger.empty]

/-- C1: every withdraw whose amount exceeds the treasury's current balance
fails (the unsigned subtraction fails closed rather than wrapping), and the
committed ledger — treasury balance and authority balance included — is
unchanged. -/
theorem withdraw_over_balance_fails_closed (l : Ledger) (caller : Pubkey) (amount : Nat)
    (h : l.treasury_lamports < amount) :
    txOk l (.withdraw caller amount) = false ∧
    step l (.withdraw caller amount) = l := by
  have herr : ∀ l2, run l (.withdraw caller amount) ≠ .ok l2 := by
    intro l2 hk
    obtain ⟨g, hg, hauth, hle, hov, hl2⟩ := withdraw_ok_shape hk
    omega
  constructor
  · unfold txOk
    split
    · rename_i l2 hk
      exact absurd hk (herr l2)
    · rfl
  · unfold step
    split
    · rename_i l2 hk
      exact absurd hk (herr l2)
    · rfl

theorem withdraw_over_balance_fails_closed_witness :
    W2.treasury_lamports < 1000 ∧
    txOk W2 (.withdraw 7 1000) = false ∧
    step W2 (.withdraw 7 1000) = W2 :=
  ⟨by decide, (withdraw_over_balance_fails_closed W2 7 1000 (by decide)).1,
   (withdraw_over_balance_fails_closed W2 7 1000 (by decide)).2⟩

/-- C2: a claim on a cube whose record is already marked removed fails with
`CubeAlreadyRemoved` (spec name `AlreadyClaimed`) and commits no mutation;
consequently retrying an identical claim right after a prior success
deterministically fails with the same error and changes nothing. -/
theorem claim_already_removed_rejected :
    (∀ (l : Ledger) (g : GameState) (p : Pubkey) (id : String) (t : Int) (r : CubeRecord),
        l.game_state = some g → l.cube_records id = some r → r.is_removed = true →
        run l (.removeCube p id t) = .error (.program .CubeAlreadyRemoved) ∧
        step l (.removeCube p id t) = l) ∧
    (∀ (l : Ledger) (p : Pubkey) (id : String) (t : Int) (q : Pubkey) (t2 : Int),
        txOk l (.removeCube p id t) = true →
        run (step l (.removeCube p id t)) (.removeCube q id t2) =
          .error (.program .CubeAlreadyRemoved) ∧
        step (step l (.removeCube p id t)) (.removeCube q id t2) =
          step l (.removeCube p id t)) := by
  have key : ∀ (l : Ledger) (g : GameState) (p : Pubkey) (id : String) (t : Int),
      l.game_state = some g →
      ((l.cube_records id).getD CubeRecord.fresh).is_removed = true →
      run l (.removeCube p id t) = .error (.program .CubeAlreadyRemoved) := by
    intro l g p id t hg hrem
    simp only [run]
    unfold remove_cube
    rw [hg]
    simp [hrem]
  constructor
  · intro l g p id t r hg hr hrem
    have hrem2 : ((l.cube_records id).getD CubeRecord.fresh).is_removed = true := by
      rw [hr]; exact hrem
    have he := key l g p id t hg hrem2
    exact ⟨he, step_eq_of_run_error he⟩
  · intro l p id t q t2 hok
    obtain ⟨l2, hrun⟩ := txOk_iff_ok.mp hok
    obtain ⟨g, hg, hfresh, hle, hl2⟩ := remove_cube_ok_shape hrun
    rw [step_eq_of_run_ok hrun]
    have hg2 : l2.game_state =
        some { g with total_cubes_removed := g.total_cubes_removed + 1 } := by
      rw [hl2]
    have hrem2 : ((l2.cube_records id).getD CubeRecord.fresh).is_removed = true := by
      rw [hl2]; simp
    have he := key l2 { g with total_cubes_removed := g.total_cubes_removed + 1 }
      q id t2 hg2 hrem2
    exact ⟨he, step_eq_of_run_error he⟩

theorem claim_already_removed_rejected_witness :
    (W2.game_state = some ⟨7, 100, 1, 255⟩ ∧
     W2.cube_records "cube-1" = some ⟨true, 8, 5, "cube-1"⟩ ∧
     run W2 (.removeCube 9 "cube-1" 6) = .error (.program .CubeAlreadyRemoved) ∧
     step W2 (.removeCube 9 "cube-1" 6) = W2) ∧
    (txOk W1 (.removeCube 8 "cube-1" 5) = true ∧
     run (step W1 (.removeCube 8 "cube-1" 5)) (.removeCube 9 "cube-1" 6) =
       .error (.program .CubeAlreadyRemoved)) := by
  refine ⟨⟨by decide, by decide, ?_, ?_⟩, by decide, ?_⟩
  · exact (claim_already_removed_rejected.1 W2 ⟨7, 100, 1, 255⟩ 9 "cube-1" 6
      ⟨true, 8, 5, "cube-1"⟩ (by decide) (by decide) (by decide)).1
  · exact (claim_already_removed_rejected.1 W2 ⟨7, 100, 1, 255⟩ 9 "cube-1" 6
      ⟨true, 8, 5, "cube-1"⟩ (by decide) (by decide) (by decide)).2
  · exact (claim_already_removed_rejected.2 W1 8 "cube-1" 5 9 6 (by decide)).1

/-- C3: repricing by an identity other than the stored authority fails with
the unauthorized constraint error and leaves `price_per_cube` unchanged;
repricing by the authority overwrites `price_per_cube` with the new value
and changes nothing else. -/
theorem set_price_authority_gate (l : Ledger) (g : GameState) (c : Pubkey) (np : Nat)
    (hg : l.game_state = some g) :
    (g.authority ≠ c →
        run l (.setPrice c np) = .error .unauthorized ∧
        priceOf (step l (.setPrice c np)) = priceOf l) ∧
    (g.authority = c →
        run l (.setPrice c np) =
          .ok { l with game_state := some { g with price_per_cube := np } } ∧
        priceOf (step l (.setPrice c np)) = np) := by
  constructor
  · intro hne
    have he : run l (.setPrice c np) = .error .unauthorized := by
      simp only [run]
      unfold set_price
      rw [hg]
      simp [hne]
    exact ⟨he, by rw [step_eq_of_run_error he]⟩
  · intro heq
    have hok : run l (.setPrice c np) =
        .ok { l with game_state := some { g with price_per_cube := np } } := by
      simp only [run]
      unfold set_price
      rw [hg]
      simp [heq]
    refine ⟨hok, ?_⟩
    rw [step_eq_of_run_ok hok]
    simp [priceOf]

theorem set_price_authority_gate_witness :
    (W1.game_state = some ⟨7, 100, 0, 255⟩ ∧
     run W1 (.setPrice 9 50) = .error .unauthorized ∧
     priceOf (step W1 (.setPrice 9 50)) = priceOf W1) ∧
    (run W1 (.setPrice 7 50) = .ok { W1 with game_state := some ⟨7, 50, 0, 255⟩ } ∧
     priceOf (step W1 (.setPrice 7 50)) = 50) := by
  refine ⟨⟨by decide, ?_, ?_⟩, ?_, ?_⟩
  · exact ((set_price_authority_gate W1 ⟨7, 100, 0, 255⟩ 9 50 (by decide)).1 (by decide)).1
  · exact ((set_price_authority_gate W1 ⟨7, 100, 0, 255⟩ 9 50 (by decide)).1 (by decide)).2
  · exact ((set_price_authority_gate W1 ⟨7, 100, 0, 255⟩ 7 50 (by decide)).2 rfl).1
  · exact ((set_price_authority_gate W1 ⟨7, 100, 0, 255⟩ 7 50 (by decide)).2 rfl).2

/-- C4: every committed claim moves exactly `price_per_cube` lamports from
the caller to the treasury; when the caller's balance is below the price the
system transfer fails and the whole claim transaction commits nothing. -/
theorem claim_transfers_exact_price (l : Ledger) (g : GameState) (p : Pubkey)
    (id : String) (t : Int) (hg : l.game_state = some g) :
    (txOk l (.removeCube p id t) = true →
        (step l (.removeCube p id t)).treasury_lamports =
          l.treasury_lamports + g.price_per_cube ∧
        g.price_per_cube ≤ l.lamports p ∧
        (step l (.removeCube p id t)).lamports p =
          l.lamports p - g.price_per_cube) ∧
    (l.lamports p < g.price_per_cube →
        txOk l (.removeCube p id t) = false ∧
        step l (.removeCube p id t) = l) := by
  constructor
  · intro hok
    obtain ⟨l2, hrun⟩ := txOk_iff_ok.mp hok
    obtain ⟨g2, hg2, hfresh, hle, hl2⟩ := remove_cube_ok_shape hrun
    rw [hg] at hg2
    injection hg2 with hgg
    subst hgg
    subst hl2
    rw [step_eq_of_run_ok hrun]
    refine ⟨rfl, hle, ?_⟩
    simp
  · intro hlt
    have herr : ∃ e, run l (.removeCube p id t) = .error e := by
      simp only [run]
      unfold remove_cube
      rw [hg]
      by_cases hrem : ((l.cube_records id).getD CubeRecord.fresh).is_removed
      · refine ⟨.program .CubeAlreadyRemoved, ?_⟩
        simp [hrem]
      · refine ⟨.insufficientFunds, ?_⟩
        simp [hrem, systemTransfer, hlt]
    obtain ⟨e, he⟩ := herr
    exact ⟨txOk_eq_false_of_run_error he, step_eq_of_run_error he⟩

theorem claim_transfers_exact_price_witness :
    (txOk W1 (.removeCube 8 "cube-1" 5) = true ∧
     ((step W1 (.removeCube 8 "cube-1" 5)).treasury_lamports =
        W1.treasury_lamports + 100 ∧
      100 ≤ W1.lamports 8 ∧
      (step W1 (.removeCube 8 "cube-1" 5)).lamports 8 = W1.lamports 8 - 100)) ∧
    (W1poor.lamports 3 < 100 ∧
     (txOk W1poor (.removeCube 3 "cube-9" 5) = false ∧
      step W1poor (.removeCube 3 "cube-9" 5) = W1poor)) := by
  refine ⟨⟨by decide, ?_⟩, ⟨by decide, ?_⟩⟩
  · exact (claim_transfers_exact_price W1 ⟨7, 100, 0, 255⟩ 8 "cube-1" 5
      (by decide)).1 (by decide)
  · exact (claim_transfers_exact_price W1poor ⟨7, 100, 0, 255⟩ 3 "cube-9" 5
      (by decide)).2 (by decide)

/-- C8: a successful `initialize` creates the singleton configuration record
with `total_cubes_removed = 0`, the given price, the caller as authority and
the runtime's bump bound, touching nothing else; a second call fails with
the duplicate-creation error and commits nothing. -/
theorem init_game_creates_config (l : Ledger) (c : Pubkey) (price b : Nat) :
    (l.game_state = none →
        run l (.initGame c price b) =
          .ok { l with game_state := some { authority := c,
                                            price_per_cube := price,
                                            total_cubes_removed := 0,
                                            bump := b } }) ∧
    (∀ g, l.game_state = some g →
        run l (.initGame c price b) = .error .duplicateInitialization ∧
        step l (.initGame c price b) = l) := by
  constructor
  · intro hn
    simp only [run]
    unfold initGame
    rw [hn]
  · intro g hg
    have he : run l (.initGame c price b) = .error .duplicateInitialization := by
      simp only [run]
      unfold initGame
      rw [hg]
    exact ⟨he, step_eq_of_run_error he⟩

theorem init_game_creates_config_witness :
    (W0.game_state = none ∧
     run W0 (.initGame 7 100 255) =
       .ok { W0 with game_state := some ⟨7, 100, 0, 255⟩ }) ∧
    (W1.game_state = some ⟨7, 100, 0, 255⟩ ∧
     run W1 (.initGame 9 1 7) = .error .duplicateInitialization ∧
     step W1 (.initGame 9 1 7) = W1) := by
  refine ⟨⟨by decide, ?_⟩, by decide, ?_, ?_⟩
  · exact (init_game_creates_config W0 7 100 255).1 (by decide)
  · exact ((init_game_creates_config W1 9 1 7).2 ⟨7, 100, 0, 255⟩ (by decide)).1
  · exact ((init_game_creates_config W1 9 1 7).2 ⟨7, 100, 0, 255⟩ (by decide)).2

/-- C9: every committed claim overwrites the player-stats record of the
calling player so that its `player` field is the caller (and its counter is
the previous value plus one), whatever the record held before. -/
theorem claim_overwrites_player_field (l : Ledger) (p : Pubkey) (id : String) (t : Int)
    (hok : txOk l (.removeCube p id t) = true) :
    (step l (.removeCube p id t)).player_stats p =
      some { player := p,
             cubes_removed :=
               ((l.player_stats p).getD PlayerStats.fresh).cubes_removed + 1 } := by
  obtain ⟨l2, hrun⟩ := txOk_iff_ok.mp hok
  obtain ⟨g, hg, hfresh, hle, hl2⟩ := remove_cube_ok_shape hrun
  subst hl2
  rw [step_eq_of_run_ok hrun]
  simp

theorem claim_overwrites_player_field_witness :
    txOk W1 (.removeCube 8 "cube-1" 5) = true ∧
    (step W1 (.removeCube 8 "cube-1" 5)).player_stats 8 = some ⟨8, 1⟩ :=
  ⟨by decide, claim_overwrites_player_field W1 8 "cube-1" 5 (by decide)⟩

/-- C10: within one committed claim, the emitted event's timestamp equals
the `removed_at` stored in the cube record: both are the same per-transaction
clock reading, even though the handler queries the clock twice. -/
theorem event_timestamp_matches_record (l : Ledger) (p : Pubkey) (id : String) (t : Int)
    (hok : txOk l (.removeCube p id t) = true) :
    (step l (.removeCube p id t)).events =
      l.events ++ [{ cube_id := id, player := p,
                     total_removed := totalClaims l + 1,
                     timestamp := clockGet t }] ∧
    ((step l (.removeCube p id t)).cube_records id).map CubeRecord.removed_at =
      some (clockGet t) := by
  obtain ⟨l2, hrun⟩ := txOk_iff_ok.mp hok
  obtain ⟨g, hg, hfresh, hle, hl2⟩ := remove_cube_ok_shape hrun
  subst hl2
  rw [step_eq_of_run_ok hrun]
  constructor
  · simp [totalClaims, hg]
  · simp

theorem event_timestamp_matches_record_witness :
    txOk W1 (.removeCube 8 "cube-1" 5) = true ∧
    ((step W1 (.removeCube 8 "cube-1" 5)).events =
       W1.events ++ [{ cube_id := "cube-1", player := 8,
                       total_removed := totalClaims W1 + 1,
                       timestamp := clockGet 5 }] ∧
     ((step W1 (.removeCube 8 "cube-1" 5)).cube_records "cube-1").map
        CubeRecord.removed_at = some (clockGet 5)) :=
  ⟨by decide, event_timestamp_matches_record W1 8 "cube-1" 5 (by decide)⟩

/-- C7: after initializing with price P and repricing to P2, a committed
claim charges exactly P2 — the configured price at claim time — moving P2
lamports from the caller to the treasury. -/
theorem reprice_then_claim_charges_new_price (l : Ledger) (a p : Pubkey)
    (P P2 b : Nat) (id : String) (t : Int)
    (h1 : txOk l (.initGame a P b) = true)
    (h3 : txOk (step (step l (.initGame a P b)) (.setPrice a P2))
            (.removeCube p id t) = true) :
    (step (step (step l (.initGame a P b)) (.setPrice a P2))
        (.removeCube p id t)).treasury_lamports =
      (step (step l (.initGame a P b)) (.setPrice a P2)).treasury_lamports + P2 ∧
    (step (step (step l (.initGame a P b)) (.setPrice a P2))
        (.removeCube p id t)).lamports p =
      (step (step l (.initGame a P b)) (.setPrice a P2)).lamports p - P2 := by
  obtain ⟨l1, hrun1⟩ := txOk_iff_ok.mp h1
  obtain ⟨hnone, hl1⟩ := initGame_ok_shape hrun1
  rw [step_eq_of_run_ok hrun1] at h3 ⊢
  subst hl1
  have hok2 : run { l with game_state := some { authority := a,
                                                price_per_cube := P,
                                                total_cubes_removed := 0,
                                                bump := b } } (.setPrice a P2) =
      .ok { l with game_state := some { authority := a,
                                        price_per_cube := P2,
                                        total_cubes_removed := 0,
                                        bump := b } } := by
    simp only [run]
    unfold set_price
    simp
  rw [step_eq_of_run_ok hok2] at h3 ⊢
  obtain ⟨l3, hrun3⟩ := txOk_iff_ok.mp h3
  obtain ⟨g3, hg3, hfresh3, hle3, hl3⟩ := remove_cube_ok_shape hrun3
  have hg3v : g3 = { authority := a, price_per_cube := P2,
                     total_cubes_removed := 0, bump := b } := by
    have : some { authority := a, price_per_cube := P2,
                  total_cubes_removed := 0, bump := b } = some g3 := hg3
    injection this with h2
    exact h2.symm
  subst hg3v
  subst hl3
  rw [step_eq_of_run_ok hrun3]
  constructor
  · rfl
  · simp

theorem reprice_then_claim_charges_new_price_witness :
    txOk W0 (.initGame 7 100 255) = true ∧
    txOk (step (step W0 (.initGame 7 100 255)) (.setPrice 7 50))
      (.removeCube 8 "cube-1" 5) = true ∧
    (step (step (step W0 (.initGame 7 100 255)) (.setPrice 7 50))
        (.removeCube 8 "cube-1" 5)).treasury_lamports =
      (step (step W0 (.initGame 7 100 255)) (.setPrice 7 50)).treasury_lamports
        + 50 ∧
    (step (step (step W0 (.initGame 7 100 255)) (.setPrice 7 50))
        (.removeCube 8 "cube-1" 5)).lamports 8 =
      (step (step W0 (.initGame 7 100 255)) (.setPrice 7 50)).lamports 8 - 50 := by
  refine ⟨by decide, by decide, ?_, ?_⟩
  · exact (reprice_then_claim_charges_new_price W0 7 8 100 50 255 "cube-1" 5
      (by decide) (by decide)).1
  · exact (reprice_then_claim_charges_new_price W0 7 8 100 50 255 "cube-1" 5
      (by decide) (by decide)).2
